/-
Verification of the exoplanet-classification backend (GRIT-X-Awa).

The development shallowly embeds the Python services that the claims talk
about:

* `Ensemble`  — `ModelLoader.predict_ensemble` and the raw-mode route
  `predict_raw` (weighted combination of three per-class probability
  matrices, `np.argmax` row prediction, zero-padding class alignment,
  weight fallbacks).  Probabilities are modelled as exact rationals.
* `Detect`    — `CSVProcessor.detect_dataset_type` (Kepler/TESS
  auto-detection from column names).
* `Validate`  — the required-column validation of `predict_raw` /
  `CSVProcessor.preprocess_kepler` (missing = required − present).
* `Decode`    — the label-decoding fallback of `predict_raw`.
* `Loader`    — the lazy artifact cache of `ModelLoader`.
* `TessNew`   — `TessNewFeatureEngineer` (winsorization, the 17 engineered
  features, `preprocess`), with float arithmetic idealised over ℝ.
* `TessOld`   — the transit/combined features of `TessFeatureEngineer`.

Column-oriented data frames are association lists from column name to the
list of the column's values, in pandas column order.
-/
import Mathlib

/-- Three-list pointwise zip, used for the three-model ensemble. -/
def zip3With {α β γ δ : Type} (f : α → β → γ → δ) : List α → List β → List γ → List δ
  | a :: as, b :: bs, c :: cs => f a b c :: zip3With f as bs cs
  | _, _, _ => []

theorem zip3With_length {α β γ δ : Type} (f : α → β → γ → δ) :
    ∀ (as : List α) (bs : List β) (cs : List γ),
      (zip3With f as bs cs).length = min as.length (min bs.length cs.length)
  | [], _, _ => by cases ‹List β› <;> cases ‹List γ› <;> simp [zip3With]
  | _ :: _, [], _ => by simp [zip3With]
  | _ :: _, _ :: _, [] => by simp [zip3With]
  | a :: as, b :: bs, c :: cs => by
      simp [zip3With, zip3With_length f as bs cs, Nat.succ_min_succ]

theorem zip3With_getD {α β γ δ : Type} (f : α → β → γ → δ)
    (da : α) (db : β) (dc : γ) (dd : δ) :
    ∀ (as : List α) (bs : List β) (cs : List γ) (i : ℕ),
      i < as.length → i < bs.length → i < cs.length →
      (zip3With f as bs cs).getD i dd = f (as.getD i da) (bs.getD i db) (cs.getD i dc)
  | a :: as, b :: bs, c :: cs, 0, _, _, _ => rfl
  | a :: as, b :: bs, c :: cs, i + 1, ha, hb, hc => by
      simpa [zip3With] using
        zip3With_getD f da db dc dd as bs cs i
          (Nat.lt_of_succ_lt_succ ha) (Nat.lt_of_succ_lt_succ hb) (Nat.lt_of_succ_lt_succ hc)

namespace Ensemble

/-- One row of the weighted combination `w1*P1 + w2*P2 + w3*P3`
(`model_loader.predict_ensemble` line 127 / `predict_raw` line 142). -/
def combineRow (w1 w2 w3 : ℚ) (r1 r2 r3 : List ℚ) : List ℚ :=
  zip3With (fun a b c => w1 * a + w2 * b + w3 * c) r1 r2 r3

/-- The full combined probability matrix over the three models' matrices. -/
def ensembleProba (w1 w2 w3 : ℚ) (P1 P2 P3 : List (List ℚ)) : List (List ℚ) :=
  zip3With (combineRow w1 w2 w3) P1 P2 P3

/-- `np.argmax` over one row: the index of the first occurrence of the
row's maximum (numpy's documented tie-break). `0` on the empty row. -/
def npArgmax (xs : List ℚ) : ℕ :=
  match xs with
  | [] => 0
  | x :: rest => (x :: rest).indexOf ((x :: rest).foldl max x)

/-- `ensemble_pred = np.argmax(ensemble_proba, axis=1)`. -/
def predictIdx (w1 w2 w3 : ℚ) (P1 P2 P3 : List (List ℚ)) : List ℕ :=
  (ensembleProba w1 w2 w3 P1 P2 P3).map npArgmax

theorem foldl_max_le_init (x : ℚ) : ∀ (xs : List ℚ), x ≤ xs.foldl max x
  | [] => le_refl x
  | y :: ys => le_trans (le_max_left x y) (foldl_max_le_init (max x y) ys)

theorem foldl_max_mem (x : ℚ) : ∀ (xs : List ℚ), xs.foldl max x ∈ x :: xs
  | [] => List.mem_singleton.mpr rfl
  | y :: ys => by
      rcases List.mem_cons.mp (foldl_max_mem (max x y) ys) with h | h
      · rcases max_choice x y with hx | hy
        · exact List.mem_cons.mpr (Or.inl (h.trans hx))
        · exact List.mem_cons.mpr (Or.inr (List.mem_cons.mpr (Or.inl (h.trans hy))))
      · exact List.mem_cons.mpr (Or.inr (List.mem_cons.mpr (Or.inr h)))

theorem le_foldl_max (x : ℚ) : ∀ (xs : List ℚ), ∀ y ∈ x :: xs, y ≤ xs.foldl max x
  | [], y, hy => by simpa using le_of_eq (List.mem_singleton.mp hy)
  | z :: zs, y, hy => by
      simp only [List.foldl_cons]
      rcases List.mem_cons.mp hy with h | h
      · exact h.le.trans (le_trans (le_max_left x z) (foldl_max_le_init (max x z) zs))
      · rcases List.mem_cons.mp h with h' | h'
        · exact h'.le.trans (le_trans (le_max_right x z) (foldl_max_le_init (max x z) zs))
        · exact le_foldl_max (max x z) zs y (List.mem_cons.mpr (Or.inr h'))

theorem getD_ne_of_lt_indexOf :
    ∀ (xs : List ℚ) (m : ℚ) (k : ℕ), k < xs.indexOf m → xs.getD k 0 ≠ m
  | [], m, k, hk => by simp [List.indexOf_nil] at hk
  | x :: rest, m, k, hk => by
      by_cases hx : x = m
      · rw [List.indexOf_cons_eq rest hx] at hk; omega
      · rw [List.indexOf_cons_ne rest hx] at hk
        cases k with
        | zero => simpa using hx
        | succ k => exact getD_ne_of_lt_indexOf rest m k (Nat.lt_of_succ_lt_succ hk)

theorem getD_lt_of_lt_indexOf {xs : List ℚ} {m : ℚ} {k : ℕ}
    (hk : k < xs.indexOf m) (hle : xs.getD k 0 ≤ m) : xs.getD k 0 < m :=
  lt_of_le_of_ne hle (getD_ne_of_lt_indexOf xs m k hk)

/-- np.argmax spec: the returned index is in range, attains the maximum,
and every strictly earlier entry is strictly smaller. -/
theorem npArgmax_spec (xs : List ℚ) (h : xs ≠ []) :
    npArgmax xs < xs.length ∧
    (∀ k, k < xs.length → xs.getD k 0 ≤ xs.getD (npArgmax xs) 0) ∧
    (∀ k, k < npArgmax xs → xs.getD k 0 < xs.getD (npArgmax xs) 0) := by
  match xs, h with
  | x :: rest, _ =>
    set l := x :: rest with hl
    set m := l.foldl max x with hm
    have hmem : m ∈ l := by
      have := foldl_max_mem x rest
      simpa [hl, hm, List.foldl_cons, max_self] using this
    have hub : ∀ y ∈ l, y ≤ m := by
      intro y hy
      have := le_foldl_max x rest y
      simp only [hl, List.foldl_cons] at hm ⊢
      exact hm ▸ (by
        have h2 := le_foldl_max x rest y hy
        simpa using h2)
    have hidx : l.indexOf m < l.length := List.indexOf_lt_length.mpr hmem
    have hval : l.getD (l.indexOf m) 0 = m := by
      rw [List.getD_eq_getElem l 0 hidx]
      exact List.getElem_indexOf hidx
    have harg : npArgmax l = l.indexOf m := by
      simp only [npArgmax, hl, hm, List.foldl_cons, max_self]
    refine ⟨harg ▸ hidx, ?_, ?_⟩
    · intro k hk
      rw [harg, hval]
      have : l.getD k 0 ∈ l := by
        rw [List.getD_eq_getElem l 0 hk]; exact List.getElem_mem hk
      exact hub _ this
    · intro k hk
      rw [harg] at hk
      have hklen : k < l.length := lt_trans hk hidx
      rw [harg, hval]
      exact getD_lt_of_lt_indexOf hk (hub _ (by
        rw [List.getD_eq_getElem l 0 hklen]; exact List.getElem_mem hklen))

end Ensemble

namespace Wts

/-- Default ensemble weights, hardcoded in both code paths. -/
def defaultWeights : List ℚ := [0.4, 0.35, 0.25]

/-- `model_loader.predict_ensemble` lines 118-119:
`weights = models['metadata'].get('weights', [0.4, 0.35, 0.25])` followed by
the tuple unpacking `w1, w2, w3 = weights` (a `ValueError` unless the list
has exactly three entries).  The metadata entry is `none` when the key is
absent. -/
def loaderWeights (w : Option (List ℚ)) : Except String (ℚ × ℚ × ℚ) :=
  match w.getD defaultWeights with
  | [a, b, c] => .ok (a, b, c)
  | _ => .error "ValueError: not enough values to unpack"

/-- A metadata scalar as `float(x)` sees it: a numeric value, or a value
`float` cannot convert (which raises). -/
inductive MetaEntry
  | num (q : ℚ)
  | nonnum
deriving DecidableEq

def toFloatQ : MetaEntry → Option ℚ
  | .num q => some q
  | .nonnum => none

def defaultEntries : List MetaEntry := [.num 0.4, .num 0.35, .num 0.25]

/-- `predict_raw` lines 81-84:
`weights = meta.get("weights") or [0.40, 0.35, 0.25]` (Python `or` replaces
a missing key and the falsy empty list), `if len(weights) != 3: weights = [...]`,
then `[float(x) for x in weights]` which raises on a non-numeric entry. -/
def predictWeights (w : Option (List MetaEntry)) : Except String (ℚ × ℚ × ℚ) :=
  let ws := match w with
    | none => defaultEntries
    | some l => if l.isEmpty then defaultEntries else l
  let ws := if ws.length ≠ 3 then defaultEntries else ws
  match ws.mapM toFloatQ with
  | some [a, b, c] => .ok (a, b, c)
  | _ => .error "ValueError: could not convert to float"

end Wts

namespace Pad

/-- `P.shape[1]` of a (rectangular) probability matrix. -/
def width (P : List (List ℚ)) : ℕ := (P.headD []).length

/-- `predict_raw` lines 132-137, `_pad`: keep a matrix that already has
`n` columns, otherwise copy it into a zero matrix of `n` columns (pad each
row on the right with zero-probability columns). -/
def pad (P : List (List ℚ)) (n : ℕ) : List (List ℚ) :=
  if width P = n then P
  else P.map (fun r => r ++ List.replicate (n - r.length) 0)

/-- `predict_raw` lines 130 and 139: the common class count is the maximum
width of the three matrices, and all three are padded to it. -/
def nClasses (P1 P2 P3 : List (List ℚ)) : ℕ :=
  max (width P1) (max (width P2) (width P3))

def alignClasses (P1 P2 P3 : List (List ℚ)) :
    List (List ℚ) × List (List ℚ) × List (List ℚ) :=
  let n := nClasses P1 P2 P3
  (pad P1 n, pad P2 n, pad P3 n)

end Pad

namespace Detect

/-- `CSVProcessor.KEPLER_FEATURES` (csv_service.py lines 16-22). -/
def KEPLER_FEATURES : List String :=
  ["koi_pdisposition", "koi_score", "koi_fpflag_nt", "koi_fpflag_ss",
   "koi_fpflag_co", "koi_fpflag_ec", "koi_period", "koi_impact",
   "koi_duration", "koi_depth", "koi_prad", "koi_teq", "koi_insol",
   "koi_model_snr", "koi_tce_plnt_num", "koi_steff", "koi_slogg",
   "koi_srad", "ra", "dec", "koi_kepmag"]

/-- `CSVProcessor.TESS_FEATURES` (csv_service.py lines 24-28). -/
def TESS_FEATURES : List String :=
  ["ra", "dec", "st_teff", "st_logg", "st_rad", "st_dist",
   "st_pmra", "st_pmdec", "st_tmag", "pl_orbper", "pl_rade",
   "pl_trandep", "pl_trandurh", "pl_eqt", "pl_insol"]

/-- `len(columns & KEPLER_FEATURES)`: the size of the intersection of the
batch's column set with the known-feature set (the known lists have no
duplicates, so counting over them realises the set intersection). -/
def keplerMatch (cols : List String) : ℕ :=
  (KEPLER_FEATURES.filter (fun c => cols.contains c)).length

def tessMatch (cols : List String) : ℕ :=
  (TESS_FEATURES.filter (fun c => cols.contains c)).length

/-- The indeterminate-dataset-type error message, reporting both counts
(csv_service.py lines 56-60). -/
def indeterminateMsg (km tm : ℕ) : String :=
  "Cannot determine dataset type. Kepler features found: " ++ toString km ++
  ", TESS features found: " ++ toString tm ++ ". Need at least 10 matching features."

/-- `CSVProcessor.detect_dataset_type` (csv_service.py lines 33-60). -/
def detect_dataset_type (cols : List String) : Except String String :=
  let km := keplerMatch cols
  let tm := tessMatch cols
  if km > tm ∧ km ≥ 10 then .ok "kepler"
  else if tm > km ∧ tm ≥ 10 then .ok "tess"
  else .error (indeterminateMsg km tm)

end Detect

namespace Validate

/-- A raw batch for the rows-mode of `predict_raw`: column-oriented frame,
column name to values. -/
abbrev DFq := List (String × List ℚ)

def colNames (df : DFq) : List String := df.map Prod.fst

def getColD (df : DFq) (c : String) : List ℚ :=
  ((df.find? (fun p => p.1 == c)).map Prod.snd).getD []

/-- `predict_raw` line 91: `missing = [c for c in feature_order if c not in cols]`
(order-preserving; `preprocess_kepler` computes the same set as
`set(feature_order) - set(df.columns)`). -/
def missingOf (feature_order : List String) (df : DFq) : List String :=
  feature_order.filter (fun c => ¬ (colNames df).contains c)

/-- `predict_raw` lines 92-95: raise listing the missing columns, else
select exactly the required columns in order (`X_raw = df_in[feature_order]`). -/
def validateAndSelect (feature_order : List String) (df : DFq) :
    Except (List String) DFq :=
  let missing := missingOf feature_order df
  if missing.isEmpty then .ok (feature_order.map (fun c => (c, getColD df c)))
  else .error missing

end Validate

namespace Decode

/-- A decoded per-row label as it appears in the JSON response: the string
produced by `str(...)` on the success path, or the raw Python `int` kept by
the fallback path (`labels = [int(i) for i in pred_idx]`). -/
inductive PyVal
  | s (v : String)
  | i (v : ℤ)
deriving DecidableEq

/-- A fitted label encoder as `predict_raw` uses it: `inverse_transform`
(which may raise) and `classes_`.  An object without an
`inverse_transform` attribute is treated like a missing encoder by the
guard `le is not None and hasattr(le, "inverse_transform")`. -/
structure Encoder where
  inverseTransform : List ℕ → Except String (List String)
  classes : List String

/-- `predict_raw` lines 147-157: try the encoder; on a missing encoder or a
raising `inverse_transform`, fall back to the raw numeric indices as labels
and synthesize class names as stringified indices `0..n_classes-1`. -/
def decodeLabels (le : Option Encoder) (predIdx : List ℕ) (nClasses : ℕ) :
    List PyVal × List String :=
  match le with
  | some e =>
    match e.inverseTransform predIdx with
    | .ok labs => (labs.map PyVal.s, e.classes.map (fun c => c))
    | .error _ => (predIdx.map (fun i => PyVal.i i), (List.range nClasses).map toString)
  | none => (predIdx.map (fun i => PyVal.i i), (List.range nClasses).map toString)

end Decode

namespace Loader

/-- `ModelLoader.get_kepler_models` / `get_tess_models` for one variant:
the cache is `None` or a loaded artifact bundle.  `load` is what
`_load_model_set` would do on this access: return a bundle or raise.
Returns the new cache state, the call's outcome, and whether the expensive
load was attempted on this access. -/
def access {M : Type} (cache : Option M) (load : Except String M) :
    Option M × Except String M × Bool :=
  match cache with
  | some m => (some m, .ok m, false)
  | none =>
    match load with
    | .ok m => (some m, .ok m, true)
    | .error e => (none, .error e, true)

end Loader

namespace Frame

/-- A pandas DataFrame, column-oriented: column name to values, in pandas
column order.  Float values are idealised as reals. -/
abbrev Col := List ℝ

abbrev DF := List (String × Col)

def colNames (df : DF) : List String := df.map Prod.fst

def hasCol (df : DF) (c : String) : Bool := (colNames df).contains c

def getColD (df : DF) (c : String) : Col :=
  ((df.find? (fun p => p.1 == c)).map Prod.snd).getD []

/-- `len(df)`: the length of the first column (0 for an empty frame). -/
def nrows (df : DF) : ℕ := (df.headD ("", [])).2.length

/-- `df[c] = v`: overwrite the column if the name exists, else append it
(pandas column-assignment semantics). -/
def setCol (df : DF) (c : String) (v : Col) : DF :=
  if hasCol df c then df.map (fun p => if p.1 == c then (c, v) else p)
  else df ++ [(c, v)]

/-- `df[names]`: select columns by name, in the given order; `none` models
the `KeyError` pandas raises when a name is absent. -/
def selectCols (df : DF) (names : List String) : Option DF :=
  if names.all (fun c => hasCol df c) then
    some (names.map (fun c => (c, getColD df c)))
  else none

end Frame

namespace TessNew

open Frame

/-- `TessNewFeatureEngineer.BASE_FEATURES` (lines 27-32). -/
def BASE_FEATURES : List String :=
  ["ra", "dec", "st_teff", "st_logg", "st_rad", "st_dist",
   "st_pmra", "st_pmdec", "st_tmag",
   "pl_orbper", "pl_rade", "pl_trandep", "pl_trandurh", "pl_eqt", "pl_insol",
   "pl_tranmid", "pl_pnum"]

/-- `preprocess`'s `expected_feature_order` (lines 153-164): the 17 base
features followed by the 17 engineered features. -/
def expected_feature_order : List String :=
  ["ra", "dec", "st_teff", "st_logg", "st_rad", "st_dist",
   "st_pmra", "st_pmdec", "st_tmag",
   "pl_orbper", "pl_rade", "pl_trandep", "pl_trandurh", "pl_eqt", "pl_insol",
   "pl_tranmid", "pl_pnum",
   "planet_star_ratio", "transit_depth_normalized", "transit_depth_anomaly",
   "detection_quality", "transit_duration_fraction",
   "pl_orbper_log", "st_teff_log", "st_dist_log",
   "is_m_dwarf", "deep_long_transit", "is_earth_sized", "is_neptune_sized",
   "is_sun_like", "pl_insol_log", "is_short_transit", "high_snr_detection",
   "is_nearby"]

/-- Stable sort of a real column, for order statistics. -/
noncomputable def sortR (xs : List ℝ) : List ℝ := List.insertionSort (· ≤ ·) xs

/-- `Series.quantile(0.75)` with pandas' default linear interpolation: at
position `h = 0.75*(n-1)` of the sorted values, interpolating between the
flooring and ceiling order statistics. -/
noncomputable def quantile75 (xs : List ℝ) : ℝ :=
  let n := xs.length
  let v := sortR xs
  let i := 3 * (n - 1) / 4
  let j := (3 * (n - 1) + 3) / 4
  let h : ℝ := (3 * (n - 1) : ℕ) / 4
  v.getD i 0 + (h - i) * (v.getD j 0 - v.getD i 0)

/-- `scipy.stats.mstats.winsorize(col, limits=[0.01, 0.01])`: with
`k = n // 100`, the k smallest values are raised to the k-th order
statistic and the k largest lowered to the (n-1-k)-th; pointwise this
clamps every value into that interval. -/
noncomputable def winsorize01 (xs : List ℝ) : List ℝ :=
  let n := xs.length
  let s := sortR xs
  let lo := s.getD (n / 100) 0
  let hi := s.getD (n - n / 100 - 1) 0
  xs.map (fun x => max lo (min x hi))

/-- `apply_winsorization` (lines 37-46): winsorize every base-feature
column that is present. -/
noncomputable def apply_winsorization (df : DF) : DF :=
  BASE_FEATURES.foldl
    (fun acc c => if hasCol acc c then setCol acc c (winsorize01 (getColD acc c)) else acc)
    df

/-- Line 62: `pl_rade / (st_rad * 109.2)`. -/
noncomputable def planet_star_ratio (rade srad : ℝ) : ℝ := rade / (srad * 109.2)

/-- Line 65: `pl_trandep / 1e6`. -/
noncomputable def transit_depth_normalized (dep : ℝ) : ℝ := dep / 1e6

/-- Line 68: `transit_depth_normalized / (planet_star_ratio**2 + 1e-12)`. -/
noncomputable def transit_depth_anomaly (tdn psr : ℝ) : ℝ := tdn / (psr ^ 2 + 1e-12)

/-- Line 71: `pl_trandep / (10 ** (st_tmag / 5.0))`. -/
noncomputable def detection_quality (dep tmag : ℝ) : ℝ := dep / (10 : ℝ) ^ (tmag / 5)

/-- Line 74: `pl_trandurh / (pl_orbper * 24.0)`. -/
noncomputable def transit_duration_fraction (durh per : ℝ) : ℝ := durh / (per * 24)

/-- `np.log10(x + 1.0)` (lines 77-79, 95). -/
noncomputable def log10p1 (x : ℝ) : ℝ := Real.logb 10 (x + 1)

/-- `(condition).astype(int)` on a boolean column entry. -/
noncomputable def boolFlag (p : Prop) [Decidable p] : ℝ := if p then 1 else 0

/-- `engineer_features` (lines 48-108): append the 17 engineered columns in
source order; later columns read the already-assigned earlier ones. -/
noncomputable def engineer_features (df : DF) : DF :=
  let df := setCol df "planet_star_ratio"
    (List.zipWith planet_star_ratio (getColD df "pl_rade") (getColD df "st_rad"))
  let df := setCol df "transit_depth_normalized"
    ((getColD df "pl_trandep").map transit_depth_normalized)
  let df := setCol df "transit_depth_anomaly"
    (List.zipWith transit_depth_anomaly
      (getColD df "transit_depth_normalized") (getColD df "planet_star_ratio"))
  let df := setCol df "detection_quality"
    (List.zipWith detection_quality (getColD df "pl_trandep") (getColD df "st_tmag"))
  let df := setCol df "transit_duration_fraction"
    (List.zipWith transit_duration_fraction
      (getColD df "pl_trandurh") (getColD df "pl_orbper"))
  let df := setCol df "pl_orbper_log" ((getColD df "pl_orbper").map log10p1)
  let df := setCol df "st_teff_log" ((getColD df "st_teff").map log10p1)
  let df := setCol df "st_dist_log" ((getColD df "st_dist").map log10p1)
  let df := setCol df "is_m_dwarf"
    ((getColD df "st_teff").map (fun t => boolFlag (t < 3700)))
  let df := setCol df "deep_long_transit"
    (List.zipWith (fun dep durh => boolFlag (dep > 10000 ∧ durh > 8))
      (getColD df "pl_trandep") (getColD df "pl_trandurh"))
  let df := setCol df "is_earth_sized"
    ((getColD df "pl_rade").map (fun r => boolFlag (0.5 ≤ r ∧ r ≤ 2)))
  let df := setCol df "is_neptune_sized"
    ((getColD df "pl_rade").map (fun r => boolFlag (4 < r ∧ r ≤ 10)))
  let df := setCol df "is_sun_like"
    ((getColD df "st_teff").map (fun t => boolFlag (5200 ≤ t ∧ t ≤ 6000)))
  let df := setCol df "pl_insol_log" ((getColD df "pl_insol").map log10p1)
  let df := setCol df "is_short_transit"
    ((getColD df "pl_trandurh").map (fun d => boolFlag (d < 2)))
  let df := setCol df "high_snr_detection"
    (let q75 := quantile75 (getColD df "detection_quality")
     (getColD df "detection_quality").map (fun x => boolFlag (q75 < x)))
  let df := setCol df "is_nearby"
    ((getColD df "st_dist").map (fun d => boolFlag (d < 50)))
  df

/-- `preprocess` lines 127-134: default `pl_pnum` to the constant 1 and
`pl_tranmid` to the constant 0.0 when absent. -/
noncomputable def fillDefaults (df : DF) : DF :=
  let d1 := if hasCol df "pl_pnum" then df
            else setCol df "pl_pnum" (List.replicate (nrows df) 1)
  if hasCol d1 "pl_tranmid" then d1
  else setCol d1 "pl_tranmid" (List.replicate (nrows d1) 0)

/-- `preprocess` line 137: the base features that cannot be defaulted. -/
def required_features : List String :=
  BASE_FEATURES.filter (fun f => !(f == "pl_pnum" || f == "pl_tranmid"))

/-- `preprocess` line 138: the required features absent from the frame
(after defaults are filled in). -/
noncomputable def missingOf (df : DF) : List String :=
  required_features.filter (fun c => !hasCol (fillDefaults df) c)

inductive PErr
  | missingFeatures (missing : List String)
  | keyError
deriving DecidableEq

/-- `preprocess` (lines 110-166): fill defaults, validate the required
features (ValueError on any missing), order the base columns, winsorize,
engineer, and return the 34 columns in the fixed expected order.
`keyError` models the pandas KeyError of a column selection (provably
never reached). -/
noncomputable def preprocess (df : DF) : Except PErr DF :=
  let dfc := fillDefaults df
  let missing := missingOf df
  if missing.isEmpty then
    match selectCols dfc BASE_FEATURES with
    | none => .error .keyError
    | some dfOrdered =>
      match selectCols (engineer_features (apply_winsorization dfOrdered))
          expected_feature_order with
      | none => .error .keyError
      | some out => .ok out
  else .error (.missingFeatures missing)

end TessNew

namespace TessOld

open Frame

/-- numpy float `%`: `a - b * floor(a / b)`. -/
noncomputable def realFMod (a b : ℝ) : ℝ := a - b * ⌊a / b⌋

/-- `TessFeatureEngineer.create_transit_features`
(tess_feature_engineering.py lines 35-51): the transit-geometry columns,
each block guarded on its input columns being present.  Here the anomaly
denominator uses the epsilon `1e-10`. -/
noncomputable def create_transit_features (df : DF) : DF :=
  let df :=
    if hasCol df "pl_trandep" && hasCol df "st_rad" && hasCol df "pl_rade" then
      let df := setCol df "transit_depth_normalized"
        ((getColD df "pl_trandep").map (fun d => d / 1e6))
      let theoretical_depth := List.zipWith
        (fun rade srad => (rade / (srad * 109.2)) ^ 2)
        (getColD df "pl_rade") (getColD df "st_rad")
      setCol df "transit_depth_anomaly"
        (List.zipWith (fun tdn th => tdn / (th + 1e-10))
          (getColD df "transit_depth_normalized") theoretical_depth)
    else df
  let df :=
    if hasCol df "pl_trandurh" && hasCol df "pl_orbper" then
      let df := setCol df "transit_duration_fraction"
        (List.zipWith (fun durh per => durh / (per * 24))
          (getColD df "pl_trandurh") (getColD df "pl_orbper"))
      let df := setCol df "is_short_transit"
        ((getColD df "pl_trandurh").map (fun d => TessNew.boolFlag (d < 2)))
      setCol df "is_long_transit"
        ((getColD df "pl_trandurh").map (fun d => TessNew.boolFlag (d > 10)))
    else df
  if hasCol df "pl_tranmid" && hasCol df "pl_orbper" then
    setCol df "transit_phase"
      (List.zipWith (fun mid per => realFMod mid per / per)
        (getColD df "pl_tranmid") (getColD df "pl_orbper"))
  else df

/-- The detection-quality block of
`TessFeatureEngineer.create_combined_features`
(tess_feature_engineering.py lines 139-141); the function's other blocks
touch neither of these two columns. -/
noncomputable def create_combined_features_snr (df : DF) : DF :=
  if hasCol df "pl_trandep" && hasCol df "st_tmag" then
    let df := setCol df "detection_quality"
      (List.zipWith (fun dep tmag => dep / (10 : ℝ) ^ (tmag / 5))
        (getColD df "pl_trandep") (getColD df "st_tmag"))
    setCol df "high_snr_detection"
      ((getColD df "detection_quality").map
        (fun x => TessNew.boolFlag (TessNew.quantile75 (getColD df "detection_quality") < x)))
  else df

end TessOld

namespace Frame

theorem hasCol_iff (df : DF) (c : String) : hasCol df c = true ↔ c ∈ colNames df := by
  simp [hasCol]

theorem fst_replace (c : String) (v : Col) (p : String × Col) :
    ((if p.1 == c then (c, v) else p) : String × Col).1 = p.1 := by
  by_cases h : p.1 == c
  · simp only [h, if_true]
    exact (eq_of_beq h).symm
  · simp [h]

theorem colNames_setCol (df : DF) (c : String) (v : Col) :
    colNames (setCol df c v) =
      if hasCol df c then colNames df else colNames df ++ [c] := by
  unfold setCol
  by_cases h : hasCol df c
  · simp only [h, if_true, colNames, List.map_map]
    exact List.map_congr_left (fun p _ => fst_replace c v p)
  · simp [h, colNames]

theorem hasCol_setCol_self (df : DF) (c : String) (v : Col) :
    hasCol (setCol df c v) c = true := by
  rw [hasCol_iff, colNames_setCol]
  by_cases h : hasCol df c
  · simp only [h, if_true]
    exact (hasCol_iff df c).mp h
  · simp [h]

theorem hasCol_setCol_ne (df : DF) (b c : String) (v : Col) (h : b ≠ c) :
    hasCol (setCol df b v) c = hasCol df c := by
  by_cases hc : hasCol df c
  · rw [hc]
    rw [hasCol_iff, colNames_setCol]
    by_cases hb : hasCol df b <;> simp [hb, (hasCol_iff df c).mp hc]
  · simp only [Bool.not_eq_true] at hc
    rw [hc]
    rw [← Bool.not_eq_true, hasCol_iff, colNames_setCol]
    have hcm : c ∉ colNames df := fun hm => by
      simp [(hasCol_iff df c).mpr hm] at hc
    by_cases hb : hasCol df b <;> simp [hb, hcm, h.symm]

theorem find?_eq_none_of_not_has {df : DF} {c : String} (h : hasCol df c = false) :
    df.find? (fun p => p.1 == c) = none := by
  rw [List.find?_eq_none]
  intro p hp hb
  have : c ∈ colNames df := by
    have : p.1 = c := eq_of_beq hb
    exact this ▸ List.mem_map_of_mem Prod.fst hp
  simp [(hasCol_iff df c).mpr this] at h

theorem getColD_append_of_not_has {df : DF} (l : DF) {c : String}
    (h : hasCol df c = false) : getColD (df ++ l) c = getColD l c := by
  unfold getColD
  rw [List.find?_append, find?_eq_none_of_not_has h, Option.none_or]

theorem find?_map_replace (df : DF) (c : String) (v : Col) :
    (df.map (fun p => if p.1 == c then (c, v) else p)).find? (fun p => p.1 == c) =
      (df.find? (fun p => p.1 == c)).map (fun _ => (c, v)) := by
  induction df with
  | nil => rfl
  | cons a rest ih =>
    rw [List.map_cons]
    by_cases h : a.1 == c
    · have h1 : ((c, v) :: rest.map (fun p => if p.1 == c then (c, v) else p)).find?
          (fun p => p.1 == c) = some (c, v) := List.find?_cons_of_pos _ (by simp)
      have h2 : (a :: rest).find? (fun p => p.1 == c) = some a :=
        List.find?_cons_of_pos _ h
      rw [if_pos h, h1, h2]
      rfl
    · have h1 : (a :: rest.map (fun p => if p.1 == c then (c, v) else p)).find?
          (fun p => p.1 == c) =
          (rest.map (fun p => if p.1 == c then (c, v) else p)).find? (fun p => p.1 == c) :=
        List.find?_cons_of_neg _ h
      have h2 : (a :: rest).find? (fun p => p.1 == c) = rest.find? (fun p => p.1 == c) :=
        List.find?_cons_of_neg _ h
      rw [if_neg h, h1, h2, ih]

theorem getColD_setCol_self (df : DF) (c : String) (v : Col) :
    getColD (setCol df c v) c = v := by
  unfold setCol
  by_cases h : hasCol df c
  · rw [if_pos h]
    unfold getColD
    rw [find?_map_replace]
    have hs : (df.find? (fun p => p.1 == c)).isSome := by
      rw [List.find?_isSome]
      obtain ⟨x, hx⟩ : ∃ x, (c, x) ∈ df := by
        simpa [colNames] using (hasCol_iff df c).mp h
      exact ⟨(c, x), hx, by simp⟩
    obtain ⟨p, hp⟩ := Option.isSome_iff_exists.mp hs
    simp [hp]
  · rw [if_neg h]
    rw [getColD_append_of_not_has _ (by simpa using h)]
    simp [getColD, List.find?_cons]

theorem find?_map_replace_ne (df : DF) {b c : String} (v : Col) (h : b ≠ c) :
    (df.map (fun p => if p.1 == c then (c, v) else p)).find? (fun p => p.1 == b) =
      df.find? (fun p => p.1 == b) := by
  induction df with
  | nil => rfl
  | cons a rest ih =>
    rw [List.map_cons]
    by_cases hc : a.1 == c
    · have ha : a.1 = c := eq_of_beq hc
      have h1 : ((c, v) :: rest.map (fun p => if p.1 == c then (c, v) else p)).find?
          (fun p => p.1 == b) =
          (rest.map (fun p => if p.1 == c then (c, v) else p)).find? (fun p => p.1 == b) :=
        List.find?_cons_of_neg _ (by simp [Ne.symm h])
      have h2 : (a :: rest).find? (fun p => p.1 == b) = rest.find? (fun p => p.1 == b) :=
        List.find?_cons_of_neg _ (by simp [ha, Ne.symm h])
      rw [if_pos hc, h1, h2, ih]
    · by_cases hb : a.1 == b
      · have h1 : (a :: rest.map (fun p => if p.1 == c then (c, v) else p)).find?
            (fun p => p.1 == b) = some a := List.find?_cons_of_pos _ hb
        have h2 : (a :: rest).find? (fun p => p.1 == b) = some a :=
          List.find?_cons_of_pos _ hb
        rw [if_neg hc, h1, h2]
      · have h1 : (a :: rest.map (fun p => if p.1 == c then (c, v) else p)).find?
            (fun p => p.1 == b) =
            (rest.map (fun p => if p.1 == c then (c, v) else p)).find? (fun p => p.1 == b) :=
          List.find?_cons_of_neg _ hb
        have h2 : (a :: rest).find? (fun p => p.1 == b) = rest.find? (fun p => p.1 == b) :=
          List.find?_cons_of_neg _ hb
        rw [if_neg hc, h1, h2, ih]

theorem getColD_setCol_ne (df : DF) {b c : String} (v : Col) (h : b ≠ c) :
    getColD (setCol df c v) b = getColD df b := by
  unfold setCol
  by_cases hc : hasCol df c
  · rw [if_pos hc]
    unfold getColD
    rw [find?_map_replace_ne df v h]
  · rw [if_neg hc]
    unfold getColD
    rw [List.find?_append]
    have : List.find? (fun p => p.1 == b) [(c, v)] = none := by
      simp [List.find?_cons, Ne.symm h]
    rw [this, Option.or_none]

theorem selectCols_of_has {df : DF} {names : List String}
    (h : ∀ c ∈ names, hasCol df c = true) :
    selectCols df names = some (names.map (fun c => (c, getColD df c))) := by
  unfold selectCols
  rw [if_pos]
  exact List.all_eq_true.mpr h

theorem colNames_of_selectCols {df out : DF} {names : List String}
    (h : selectCols df names = some out) : colNames out = names := by
  unfold selectCols at h
  by_cases hall : names.all (fun c => hasCol df c)
  · rw [if_pos hall] at h
    cases h
    simp only [colNames, List.map_map]
    have : ∀ c : String, (Prod.fst ∘ fun c => (c, getColD df c)) c = id c := fun _ => rfl
    rw [List.map_congr_left (fun c _ => this c), List.map_id]
  · rw [if_neg hall] at h
    cases h

theorem length_of_selectCols {df out : DF} {names : List String}
    (h : selectCols df names = some out) : out.length = names.length := by
  have := colNames_of_selectCols h
  calc out.length = (colNames out).length := (List.length_map out Prod.fst).symm
    _ = names.length := by rw [this]

theorem nrows_setCol_replicate (df : DF) (c : String) (x : ℝ) :
    nrows (setCol df c (List.replicate (nrows df) x)) = nrows df := by
  unfold setCol
  by_cases h : hasCol df c
  · rw [if_pos h]
    cases df with
    | nil => rfl
    | cons a rest =>
      by_cases h1 : a.1 == c
      · rw [List.map_cons, if_pos h1]
        simp [nrows]
      · rw [List.map_cons, if_neg h1]
        simp [nrows]
  · rw [if_neg h]
    cases df with
    | nil => simp [nrows]
    | cons a rest => simp [nrows]

end Frame

namespace Ensemble

theorem predictIdx_getD (w1 w2 w3 : ℚ) (P1 P2 P3 : List (List ℚ)) (i : ℕ)
    (h : i < (ensembleProba w1 w2 w3 P1 P2 P3).length) :
    (predictIdx w1 w2 w3 P1 P2 P3).getD i 0 =
      npArgmax ((ensembleProba w1 w2 w3 P1 P2 P3).getD i []) := by
  unfold predictIdx
  rw [List.getD_eq_getElem _ _ (by simpa [predictIdx] using h), List.getElem_map,
    ← List.getD_eq_getElem _ _ h]

theorem combineRow_sum (w1 w2 w3 : ℚ) :
    ∀ (r1 r2 r3 : List ℚ), r1.length = r2.length → r1.length = r3.length →
      (combineRow w1 w2 w3 r1 r2 r3).sum = w1 * r1.sum + w2 * r2.sum + w3 * r3.sum
  | [], r2, r3, h2, h3 => by
      have : r2 = [] := List.length_eq_zero.mp h2.symm
      have : r3 = [] := List.length_eq_zero.mp h3.symm
      subst_vars; simp [combineRow, zip3With]
  | a :: r1, r2, r3, h2, h3 => by
      match r2, r3, h2, h3 with
      | b :: r2, c :: r3, h2, h3 =>
        have ih := combineRow_sum w1 w2 w3 r1 r2 r3
          (by simpa using h2) (by simpa using h3)
        simp only [combineRow, zip3With, List.sum_cons] at ih ⊢
        rw [ih]; ring

end Ensemble

/-- C2: the ensemble probability matrix is the entrywise weighted sum
`w1*P1 + w2*P2 + w3*P3` with no renormalization of the weights; each row's
predicted class index is the arg-max over that row with ties broken at the
lowest (first-occurring) index; repeated calls on identical input give
identical predictions; and the spec's hand-computable scenario
(A: 0.9/0.1, B: 0.05/0.95, C: 0.5/0.5 at weights [0.4, 0.35, 0.25]) picks
class 0. -/
theorem C2_ensemble_weighted_argmax :
    (∀ (w1 w2 w3 : ℚ) (P1 P2 P3 : List (List ℚ)) (i j : ℕ),
      i < P1.length → i < P2.length → i < P3.length →
      j < (P1.getD i []).length → j < (P2.getD i []).length → j < (P3.getD i []).length →
      ((Ensemble.ensembleProba w1 w2 w3 P1 P2 P3).getD i []).getD j 0 =
        w1 * ((P1.getD i []).getD j 0) + w2 * ((P2.getD i []).getD j 0) +
          w3 * ((P3.getD i []).getD j 0)) ∧
    (∀ (w1 w2 w3 : ℚ) (P1 P2 P3 : List (List ℚ)) (i : ℕ),
      i < (Ensemble.ensembleProba w1 w2 w3 P1 P2 P3).length →
      (Ensemble.ensembleProba w1 w2 w3 P1 P2 P3).getD i [] ≠ [] →
      (Ensemble.predictIdx w1 w2 w3 P1 P2 P3).getD i 0 <
          ((Ensemble.ensembleProba w1 w2 w3 P1 P2 P3).getD i []).length ∧
        (∀ k, k < ((Ensemble.ensembleProba w1 w2 w3 P1 P2 P3).getD i []).length →
          ((Ensemble.ensembleProba w1 w2 w3 P1 P2 P3).getD i []).getD k 0 ≤
            ((Ensemble.ensembleProba w1 w2 w3 P1 P2 P3).getD i []).getD
              ((Ensemble.predictIdx w1 w2 w3 P1 P2 P3).getD i 0) 0) ∧
        (∀ k, k < (Ensemble.predictIdx w1 w2 w3 P1 P2 P3).getD i 0 →
          ((Ensemble.ensembleProba w1 w2 w3 P1 P2 P3).getD i []).getD k 0 <
            ((Ensemble.ensembleProba w1 w2 w3 P1 P2 P3).getD i []).getD
              ((Ensemble.predictIdx w1 w2 w3 P1 P2 P3).getD i 0) 0)) ∧
    (∀ (w1 w2 w3 : ℚ) (P1 P2 P3 : List (List ℚ)),
      Ensemble.predictIdx w1 w2 w3 P1 P2 P3 = Ensemble.predictIdx w1 w2 w3 P1 P2 P3) ∧
    Ensemble.predictIdx 0.4 0.35 0.25 [[0.9, 0.1]] [[0.05, 0.95]] [[0.5, 0.5]] = [0] := by
  refine ⟨?_, ?_, fun _ _ _ _ _ _ => rfl, ?_⟩
  · intro w1 w2 w3 P1 P2 P3 i j h1 h2 h3 hj1 hj2 hj3
    unfold Ensemble.ensembleProba
    rw [zip3With_getD _ [] [] [] [] P1 P2 P3 i h1 h2 h3]
    unfold Ensemble.combineRow
    rw [zip3With_getD _ 0 0 0 0 _ _ _ j hj1 hj2 hj3]
  · intro w1 w2 w3 P1 P2 P3 i hi hne
    have hspec := Ensemble.npArgmax_spec _ hne
    rw [Ensemble.predictIdx_getD w1 w2 w3 P1 P2 P3 i hi]
    exact hspec
  · have hrow : Ensemble.ensembleProba 0.4 0.35 0.25 [[0.9, 0.1]] [[0.05, 0.95]] [[0.5, 0.5]]
        = [[0.5025, 0.4975]] := by
      norm_num [Ensemble.ensembleProba, Ensemble.combineRow, zip3With]
    unfold Ensemble.predictIdx
    rw [hrow]
    have hmax : max (max (0.5025 : ℚ) 0.5025) 0.4975 = 0.5025 := by
      rw [max_self]; exact max_eq_left (by norm_num)
    simp only [List.map_cons, List.map_nil, Ensemble.npArgmax, List.foldl_cons,
      List.foldl_nil, hmax]
    simp [List.indexOf_cons_self]

/-- C3 (counterexample): a present-but-malformed weights entry does not fall
back to the defaults — `model_loader` raises unpacking a 2-element list, and
`predict_raw` raises converting a 3-element non-numeric list. -/
theorem C3_counterexample_malformed_weights_raise :
    Wts.loaderWeights (some [0.5, 0.5]) ≠ .ok (0.4, 0.35, 0.25) ∧
    Wts.loaderWeights (some [0.5, 0.5]) =
      .error "ValueError: not enough values to unpack" ∧
    Wts.predictWeights (some [.nonnum, .nonnum, .nonnum]) ≠ .ok (0.4, 0.35, 0.25) ∧
    Wts.predictWeights (some [.nonnum, .nonnum, .nonnum]) =
      .error "ValueError: could not convert to float" := by
  have h1 : Wts.loaderWeights (some [0.5, 0.5]) =
      .error "ValueError: not enough values to unpack" := rfl
  have h2 : Wts.predictWeights (some [.nonnum, .nonnum, .nonnum]) =
      .error "ValueError: could not convert to float" := rfl
  refine ⟨?_, h1, ?_, h2⟩
  · rw [h1]; simp
  · rw [h2]; simp

/-- C3 (amended): with the weights entry absent both paths fall back to
`[0.40, 0.35, 0.25]`; `predict_raw` additionally falls back whenever the
present entry does not have exactly 3 elements (it raises only on a
3-element non-numeric list, and `model_loader` raises on any present list
that is not of length 3); with weights summing to 1 the combination of
three probability rows still sums to the positive value 1 per row. -/
theorem C3_weights_fallback :
    Wts.loaderWeights none = .ok (0.4, 0.35, 0.25) ∧
    Wts.predictWeights none = .ok (0.4, 0.35, 0.25) ∧
    (∀ l : List Wts.MetaEntry, l.length ≠ 3 →
      Wts.predictWeights (some l) = .ok (0.4, 0.35, 0.25)) ∧
    (∀ a b c : ℚ, Wts.loaderWeights (some [a, b, c]) = .ok (a, b, c)) ∧
    (∀ r1 r2 r3 : List ℚ, r1.length = r2.length → r1.length = r3.length →
      r1.sum = 1 → r2.sum = 1 → r3.sum = 1 →
      (0 : ℚ) < (Ensemble.combineRow 0.4 0.35 0.25 r1 r2 r3).sum) := by
  refine ⟨rfl, rfl, ?_, fun a b c => rfl, ?_⟩
  · intro l hl
    unfold Wts.predictWeights
    match l, hl with
    | [], _ => rfl
    | x :: l, hl =>
      simp only [List.isEmpty_cons, if_false]
      rw [if_pos (by simpa using hl)]
      rfl
  · intro r1 r2 r3 h2 h3 s1 s2 s3
    rw [Ensemble.combineRow_sum 0.4 0.35 0.25 r1 r2 r3 h2 h3, s1, s2, s3]
    norm_num

namespace Pad

theorem length_pad (P : List (List ℚ)) (n : ℕ) : (pad P n).length = P.length := by
  unfold pad
  by_cases h : width P = n
  · rw [if_pos h]
  · rw [if_neg h, List.length_map]

theorem padRow_getD_lt (r : List ℚ) (n j : ℕ) (hj : j < r.length) :
    (r ++ List.replicate (n - r.length) 0).getD j 0 = r.getD j 0 := by
  rw [List.getD_eq_getElem _ _ (by rw [List.length_append]; omega),
    List.getElem_append_left hj, List.getD_eq_getElem _ _ hj]

theorem padRow_getD_ge (r : List ℚ) (n j : ℕ) (hj : r.length ≤ j) :
    (r ++ List.replicate (n - r.length) 0).getD j 0 = 0 := by
  by_cases h2 : j < r.length + (n - r.length)
  · rw [List.getD_eq_getElem _ _
      (by rw [List.length_append, List.length_replicate]; omega),
      List.getElem_append_right (by omega)]
    simp
  · exact List.getD_eq_default _ _
      (by rw [List.length_append, List.length_replicate]; omega)

theorem pad_getD (P : List (List ℚ)) (n i : ℕ) (hi : i < P.length) :
    (pad P n).getD i [] =
      if width P = n then P.getD i []
      else (P.getD i []) ++ List.replicate (n - (P.getD i []).length) 0 := by
  unfold pad
  by_cases h : width P = n
  · rw [if_pos h, if_pos h]
  · rw [if_neg h, if_neg h,
      List.getD_eq_getElem _ _ (by simpa using hi), List.getElem_map,
      List.getD_eq_getElem _ _ hi]

end Pad

/-- C4: aligning the three probability matrices pads each to the maximum
class count `n` with zero columns on the right: every padded row of a
rectangular matrix has length exactly `n`, original entries are preserved,
and the appended entries are zero, so the weighted combination is
well-defined over matrices of equal width. -/
theorem C4_class_count_zero_padding :
    ∀ (P1 P2 P3 : List (List ℚ)),
      (∀ r ∈ P1, r.length = Pad.width P1) →
      (∀ r ∈ P2, r.length = Pad.width P2) →
      (∀ r ∈ P3, r.length = Pad.width P3) →
      (Pad.width P1 ≤ Pad.nClasses P1 P2 P3 ∧
        Pad.width P2 ≤ Pad.nClasses P1 P2 P3 ∧
        Pad.width P3 ≤ Pad.nClasses P1 P2 P3) ∧
      (∀ r ∈ Pad.pad P1 (Pad.nClasses P1 P2 P3), r.length = Pad.nClasses P1 P2 P3) ∧
      (∀ r ∈ Pad.pad P2 (Pad.nClasses P1 P2 P3), r.length = Pad.nClasses P1 P2 P3) ∧
      (∀ r ∈ Pad.pad P3 (Pad.nClasses P1 P2 P3), r.length = Pad.nClasses P1 P2 P3) ∧
      (∀ i j : ℕ, i < P1.length → j < Pad.width P1 →
        ((Pad.pad P1 (Pad.nClasses P1 P2 P3)).getD i []).getD j 0 =
          (P1.getD i []).getD j 0) ∧
      (∀ i j : ℕ, i < P1.length → Pad.width P1 ≤ j →
        ((Pad.pad P1 (Pad.nClasses P1 P2 P3)).getD i []).getD j 0 = 0) := by
  intro P1 P2 P3 hr1 hr2 hr3
  have hw1 : Pad.width P1 ≤ Pad.nClasses P1 P2 P3 := le_max_left _ _
  have hw2 : Pad.width P2 ≤ Pad.nClasses P1 P2 P3 :=
    le_trans (le_max_left _ _) (le_max_right _ _)
  have hw3 : Pad.width P3 ≤ Pad.nClasses P1 P2 P3 :=
    le_trans (le_max_right _ _) (le_max_right _ _)
  have hlenPad : ∀ (P : List (List ℚ)), (∀ r ∈ P, r.length = Pad.width P) →
      Pad.width P ≤ Pad.nClasses P1 P2 P3 →
      ∀ r ∈ Pad.pad P (Pad.nClasses P1 P2 P3), r.length = Pad.nClasses P1 P2 P3 := by
    intro P hrect hle r hr
    unfold Pad.pad at hr
    by_cases h : Pad.width P = Pad.nClasses P1 P2 P3
    · rw [if_pos h] at hr
      rw [hrect r hr, h]
    · rw [if_neg h] at hr
      obtain ⟨r0, hr0, heq⟩ := List.mem_map.mp hr
      subst heq
      rw [List.length_append, List.length_replicate, hrect r0 hr0]
      omega
  refine ⟨⟨hw1, hw2, hw3⟩, hlenPad P1 hr1 hw1, hlenPad P2 hr2 hw2, hlenPad P3 hr3 hw3, ?_, ?_⟩
  · intro i j hi hj
    rw [Pad.pad_getD P1 _ i hi]
    by_cases h : Pad.width P1 = Pad.nClasses P1 P2 P3
    · rw [if_pos h]
    · rw [if_neg h]
      have hjr : j < (P1.getD i []).length := by
        rw [List.getD_eq_getElem P1 [] hi, hr1 _ (List.getElem_mem hi)]
        exact hj
      exact Pad.padRow_getD_lt _ _ _ hjr
  · intro i j hi hj
    rw [Pad.pad_getD P1 _ i hi]
    have hjr : (P1.getD i []).length ≤ j := by
      rw [List.getD_eq_getElem P1 [] hi, hr1 _ (List.getElem_mem hi)]
      exact hj
    by_cases h : Pad.width P1 = Pad.nClasses P1 P2 P3
    · rw [if_pos h]
      exact List.getD_eq_default _ _ hjr
    · rw [if_neg h]
      exact Pad.padRow_getD_ge _ _ _ hjr

/-- C4 (witness): three one-row matrices of widths 2, 1, 3 are aligned to
width 3; the padded first row keeps its entry at column 1 and is zero at
column 2. -/
theorem C4_witness_alignment :
    ((Pad.pad [[(1 : ℚ), 2]] (Pad.nClasses [[1, 2]] [[3]] [[4, 5, 6]])).getD 0 []).getD 2 0
        = 0 ∧
    ((Pad.pad [[(1 : ℚ), 2]] (Pad.nClasses [[1, 2]] [[3]] [[4, 5, 6]])).getD 0 []).getD 1 0
        = (([[(1 : ℚ), 2]] : List (List ℚ)).getD 0 []).getD 1 0 := by
  have h := C4_class_count_zero_padding [[1, 2]] [[3]] [[4, 5, 6]]
    (by simp [Pad.width]) (by simp [Pad.width]) (by simp [Pad.width])
  exact ⟨h.2.2.2.2.2 0 2 (by simp) (by simp [Pad.width]),
    h.2.2.2.2.1 0 1 (by simp) (by simp [Pad.width])⟩

/-- C5: auto-detection returns the variant whose known-feature intersection
is strictly larger than the other's and at least 10, and otherwise fails
with the indeterminate-dataset-type error reporting both match counts; a
batch with 10 Kepler-only and 9 TESS-only matching columns is classified
Kepler, and a batch with 9 and 9 is rejected. -/
theorem C5_dataset_type_detection :
    (∀ cols : List String,
      Detect.detect_dataset_type cols = .ok "kepler" ↔
        Detect.keplerMatch cols > Detect.tessMatch cols ∧
          Detect.keplerMatch cols ≥ 10) ∧
    (∀ cols : List String,
      Detect.detect_dataset_type cols = .ok "tess" ↔
        Detect.tessMatch cols > Detect.keplerMatch cols ∧
          Detect.tessMatch cols ≥ 10) ∧
    (∀ cols : List String,
      ¬(Detect.keplerMatch cols > Detect.tessMatch cols ∧
          Detect.keplerMatch cols ≥ 10) →
      ¬(Detect.tessMatch cols > Detect.keplerMatch cols ∧
          Detect.tessMatch cols ≥ 10) →
      Detect.detect_dataset_type cols =
        .error (Detect.indeterminateMsg (Detect.keplerMatch cols)
          (Detect.tessMatch cols))) ∧
    Detect.detect_dataset_type
      ["koi_pdisposition", "koi_score", "koi_fpflag_nt", "koi_fpflag_ss",
       "koi_fpflag_co", "koi_fpflag_ec", "koi_period", "koi_impact",
       "koi_duration", "koi_depth",
       "st_teff", "st_logg", "st_rad", "st_dist", "st_pmra", "st_pmdec",
       "st_tmag", "pl_orbper", "pl_rade"] = .ok "kepler" ∧
    Detect.detect_dataset_type
      ["koi_pdisposition", "koi_score", "koi_fpflag_nt", "koi_fpflag_ss",
       "koi_fpflag_co", "koi_fpflag_ec", "koi_period", "koi_impact",
       "koi_duration",
       "st_teff", "st_logg", "st_rad", "st_dist", "st_pmra", "st_pmdec",
       "st_tmag", "pl_orbper", "pl_rade"] =
      .error (Detect.indeterminateMsg 9 9) := by
  refine ⟨?_, ?_, ?_, by rfl, by rfl⟩
  · intro cols
    unfold Detect.detect_dataset_type
    constructor
    · intro h
      by_cases h1 : Detect.keplerMatch cols > Detect.tessMatch cols ∧
          Detect.keplerMatch cols ≥ 10
      · exact h1
      · rw [if_neg h1] at h
        by_cases h2 : Detect.tessMatch cols > Detect.keplerMatch cols ∧
            Detect.tessMatch cols ≥ 10
        · rw [if_pos h2] at h
          exact absurd (Except.ok.inj h) (by decide)
        · rw [if_neg h2] at h
          exact absurd h (by simp)
    · intro h1
      rw [if_pos h1]
  · intro cols
    unfold Detect.detect_dataset_type
    constructor
    · intro h
      by_cases h1 : Detect.keplerMatch cols > Detect.tessMatch cols ∧
          Detect.keplerMatch cols ≥ 10
      · rw [if_pos h1] at h
        exact absurd (Except.ok.inj h) (by decide)
      · rw [if_neg h1] at h
        by_cases h2 : Detect.tessMatch cols > Detect.keplerMatch cols ∧
            Detect.tessMatch cols ≥ 10
        · exact h2
        · rw [if_neg h2] at h
          exact absurd h (by simp)
    · intro h2
      have h1 : ¬(Detect.keplerMatch cols > Detect.tessMatch cols ∧
          Detect.keplerMatch cols ≥ 10) := by
        intro h1
        omega
      rw [if_neg h1, if_pos h2]
  · intro cols h1 h2
    unfold Detect.detect_dataset_type
    rw [if_neg h1, if_neg h2]

/-- C6: preprocessing fails with a validation error listing exactly the
missing required columns whenever `required − present` is non-empty
(a batch missing one required column gets an error naming exactly that
column), drops no rows or required columns on success, and raises no
missing-column error when the difference is empty. -/
theorem C6_missing_column_validation :
    (∀ (fo : List String) (df : Validate.DFq),
      Validate.missingOf fo df = [] ↔ ∀ c ∈ fo, c ∈ Validate.colNames df) ∧
    (∀ (fo : List String) (df : Validate.DFq) (c : String),
      c ∈ Validate.missingOf fo df ↔ c ∈ fo ∧ c ∉ Validate.colNames df) ∧
    (∀ (fo : List String) (df : Validate.DFq),
      Validate.missingOf fo df ≠ [] →
      Validate.validateAndSelect fo df = .error (Validate.missingOf fo df)) ∧
    (∀ (fo : List String) (df : Validate.DFq),
      Validate.missingOf fo df = [] →
      Validate.validateAndSelect fo df =
        .ok (fo.map (fun c => (c, Validate.getColD df c)))) ∧
    (∀ (fo : List String) (df : Validate.DFq) (out : Validate.DFq),
      Validate.validateAndSelect fo df = .ok out →
      Validate.colNames out = fo ∧ out.length = fo.length ∧
        ∀ p ∈ out, p.2 = Validate.getColD df p.1) ∧
    Validate.validateAndSelect ["a", "b"] [("a", [1])] = .error ["b"] := by
  have hmem : ∀ (fo : List String) (df : Validate.DFq) (c : String),
      c ∈ Validate.missingOf fo df ↔ c ∈ fo ∧ c ∉ Validate.colNames df := by
    intro fo df c
    unfold Validate.missingOf
    rw [List.mem_filter]
    simp
  refine ⟨?_, hmem, ?_, ?_, ?_, by rfl⟩
  · intro fo df
    constructor
    · intro h c hc
      by_contra habs
      have : c ∈ Validate.missingOf fo df := (hmem fo df c).mpr ⟨hc, habs⟩
      simp [h] at this
    · intro h
      rw [List.eq_nil_iff_forall_not_mem]
      intro c hc
      obtain ⟨h1, h2⟩ := (hmem fo df c).mp hc
      exact h2 (h c h1)
  · intro fo df h
    unfold Validate.validateAndSelect
    rw [if_neg (by simpa [List.isEmpty_iff] using h)]
  · intro fo df h
    unfold Validate.validateAndSelect
    rw [if_pos (by simpa [List.isEmpty_iff] using h)]
  · intro fo df out h
    unfold Validate.validateAndSelect at h
    by_cases hm : (Validate.missingOf fo df).isEmpty
    · rw [if_pos hm] at h
      cases h
      refine ⟨?_, by rw [List.length_map], ?_⟩
      · unfold Validate.colNames
        rw [List.map_map]
        have : ∀ c : String, (Prod.fst ∘ fun c => (c, Validate.getColD df c)) c = id c :=
          fun _ => rfl
        rw [List.map_congr_left (fun c _ => this c), List.map_id]
      · intro p hp
        obtain ⟨c, _, heq⟩ := List.mem_map.mp hp
        rw [← heq]
    · rw [if_neg hm] at h
      cases h

/-- C8 (counterexample): on the fallback path the response labels are the
raw Python integers, not stringified indices — decoding row index 2 with no
encoder yields the integer label `2`, not the string `"2"` (the class-name
list is stringified as claimed). -/
theorem C8_counterexample_fallback_label_is_int :
    (Decode.decodeLabels none [2] 3).1 ≠ [Decode.PyVal.s "2"] ∧
    (Decode.decodeLabels none [2] 3).1 = [Decode.PyVal.i 2] ∧
    (Decode.decodeLabels none [2] 3).2 = ["0", "1", "2"] := by
  refine ⟨?_, rfl, rfl⟩
  intro h
  simp [Decode.decodeLabels] at h

/-- C8 (amended): when no fitted label encoder is available or its inverse
mapping raises, the Label Decoder never fails the response: it returns the
raw numeric class index (as a number, not a string) as each row's label and
synthesizes the class-name list as the stringified indices
`0..n_classes-1`; with a working encoder it returns the stringified decoded
labels. -/
theorem C8_label_decoding_fallback :
    (∀ (predIdx : List ℕ) (n : ℕ),
      Decode.decodeLabels none predIdx n =
        (predIdx.map (fun i => Decode.PyVal.i i), (List.range n).map toString)) ∧
    (∀ (e : Decode.Encoder) (predIdx : List ℕ) (n : ℕ) (msg : String),
      e.inverseTransform predIdx = .error msg →
      Decode.decodeLabels (some e) predIdx n =
        (predIdx.map (fun i => Decode.PyVal.i i), (List.range n).map toString)) ∧
    (∀ (e : Decode.Encoder) (predIdx : List ℕ) (n : ℕ) (labs : List String),
      e.inverseTransform predIdx = .ok labs →
      Decode.decodeLabels (some e) predIdx n = (labs.map Decode.PyVal.s, e.classes)) := by
  refine ⟨fun _ _ => rfl, ?_, ?_⟩
  · intro e predIdx n msg h
    simp only [Decode.decodeLabels, h]
  · intro e predIdx n labs h
    simp only [Decode.decodeLabels, h, List.map_id, List.map_id']

/-- C9 (counterexample): a failed load leaves no latched failed state — the
cache stays empty and the very next access re-attempts the expensive load
(the attempted-load flag of the second access is `true`). -/
theorem C9_counterexample_failed_load_retries :
    (Loader.access (none : Option Unit) (.error "missing artifact")).1 = none ∧
    (Loader.access
        (Loader.access (none : Option Unit) (.error "missing artifact")).1
        (.error "missing artifact")).2.2 = true := ⟨rfl, rfl⟩

/-- C9 (amended): a failed artifact load propagates the load error to the
caller and leaves the cache empty (no failed state is recorded), so every
subsequent access with an empty cache re-attempts the expensive load;
once a load succeeds the bundle is cached and later accesses return it
without reloading. -/
theorem C9_loader_cache_behaviour :
    (∀ (M : Type) (load : Except String M) (e : String), load = .error e →
      Loader.access (none : Option M) load = (none, .error e, true)) ∧
    (∀ (M : Type) (load : Except String M),
      (Loader.access (none : Option M) load).2.2 = true) ∧
    (∀ (M : Type) (m : M) (load : Except String M),
      Loader.access (some m) load = (some m, .ok m, false)) := by
  refine ⟨?_, ?_, fun M m load => rfl⟩
  · intro M load e h
    rw [h]
    rfl
  · intro M load
    unfold Loader.access
    cases load <;> rfl

theorem zipWith_getD {α β γ : Type} (f : α → β → γ) (da : α) (db : β) (dc : γ) :
    ∀ (as : List α) (bs : List β) (i : ℕ), i < as.length → i < bs.length →
      (List.zipWith f as bs).getD i dc = f (as.getD i da) (bs.getD i db)
  | a :: as, b :: bs, 0, _, _ => rfl
  | a :: as, b :: bs, i + 1, ha, hb => by
      simpa using zipWith_getD f da db dc as bs i
        (Nat.lt_of_succ_lt_succ ha) (Nat.lt_of_succ_lt_succ hb)

theorem map_getD {α β : Type} (f : α → β) (da : α) (db : β) :
    ∀ (l : List α) (i : ℕ), i < l.length →
      (l.map f).getD i db = f (l.getD i da)
  | a :: l, 0, _ => rfl
  | a :: l, i + 1, h => by
      simpa using map_getD f da db l i (Nat.lt_of_succ_lt_succ h)

namespace TessNew

/-- The `transit_depth_normalized` column of the engineered frame, as a
function of the input columns. -/
theorem engineer_tdn_col (df : Frame.DF) :
    Frame.getColD (engineer_features df) "transit_depth_normalized" =
      (Frame.getColD df "pl_trandep").map transit_depth_normalized := by
  simp [engineer_features, Frame.getColD_setCol_ne, Frame.getColD_setCol_self]

/-- The `transit_depth_anomaly` column of the engineered frame: the epsilon
in the denominator is `1e-12`, applied to the squared planet-star ratio. -/
theorem engineer_tda_col (df : Frame.DF) :
    Frame.getColD (engineer_features df) "transit_depth_anomaly" =
      List.zipWith transit_depth_anomaly
        ((Frame.getColD df "pl_trandep").map transit_depth_normalized)
        (List.zipWith planet_star_ratio
          (Frame.getColD df "pl_rade") (Frame.getColD df "st_rad")) := by
  simp [engineer_features, Frame.getColD_setCol_ne, Frame.getColD_setCol_self]

theorem engineer_tdf_col (df : Frame.DF) :
    Frame.getColD (engineer_features df) "transit_duration_fraction" =
      List.zipWith transit_duration_fraction
        (Frame.getColD df "pl_trandurh") (Frame.getColD df "pl_orbper") := by
  simp [engineer_features, Frame.getColD_setCol_ne, Frame.getColD_setCol_self]

theorem engineer_dq_col (df : Frame.DF) :
    Frame.getColD (engineer_features df) "detection_quality" =
      List.zipWith detection_quality
        (Frame.getColD df "pl_trandep") (Frame.getColD df "st_tmag") := by
  simp [engineer_features, Frame.getColD_setCol_ne, Frame.getColD_setCol_self]

theorem engineer_snr_col (df : Frame.DF) :
    Frame.getColD (engineer_features df) "high_snr_detection" =
      (List.zipWith detection_quality
          (Frame.getColD df "pl_trandep") (Frame.getColD df "st_tmag")).map
        (fun x => boolFlag (quantile75 (List.zipWith detection_quality
          (Frame.getColD df "pl_trandep") (Frame.getColD df "st_tmag")) < x)) := by
  simp [engineer_features, Frame.getColD_setCol_ne, Frame.getColD_setCol_self]

end TessNew

namespace TessOld

/-- The three transit-geometry columns of the old engineer, as functions of
the input columns: the anomaly epsilon here is `1e-10`. -/
theorem old_transit_cols (df : Frame.DF)
    (h1 : Frame.hasCol df "pl_trandep" = true) (h2 : Frame.hasCol df "st_rad" = true)
    (h3 : Frame.hasCol df "pl_rade" = true) (h4 : Frame.hasCol df "pl_trandurh" = true)
    (h5 : Frame.hasCol df "pl_orbper" = true) :
    Frame.getColD (create_transit_features df) "transit_depth_normalized" =
      (Frame.getColD df "pl_trandep").map (fun d => d / 1e6) ∧
    Frame.getColD (create_transit_features df) "transit_depth_anomaly" =
      List.zipWith (fun tdn th => tdn / (th + 1e-10))
        ((Frame.getColD df "pl_trandep").map (fun d => d / 1e6))
        (List.zipWith (fun rade srad => (rade / (srad * 109.2)) ^ 2)
          (Frame.getColD df "pl_rade") (Frame.getColD df "st_rad")) ∧
    Frame.getColD (create_transit_features df) "transit_duration_fraction" =
      List.zipWith (fun durh per => durh / (per * 24))
        (Frame.getColD df "pl_trandurh") (Frame.getColD df "pl_orbper") := by
  by_cases h6 : Frame.hasCol df "pl_tranmid" <;>
    simp [create_transit_features, Frame.getColD_setCol_ne, Frame.getColD_setCol_self,
      Frame.hasCol_setCol_ne, Frame.hasCol_setCol_self, h1, h2, h3, h4, h5, h6]

end TessOld

/-- C1 (counterexample): in the new TESS engineer the anomaly epsilon is
`1e-12`, not `1e-10`: at the winsorized row `pl_trandep = 1, pl_rade = 0,
st_rad = 1` the engineered `transit_depth_anomaly` is `1e6`, while the
claimed formula with epsilon `1e-10` gives `1e4`. -/
theorem C1_counterexample_new_engineer_epsilon :
    Frame.getColD (TessNew.engineer_features
        [("pl_rade", [0]), ("st_rad", [1]), ("pl_trandep", [1])])
        "transit_depth_anomaly" ≠
      [((1 : ℝ) / 1e6) / (((0 : ℝ) / ((1 : ℝ) * 109.2)) ^ 2 + 1e-10)] ∧
    Frame.getColD (TessNew.engineer_features
        [("pl_rade", [0]), ("st_rad", [1]), ("pl_trandep", [1])])
        "transit_depth_anomaly" =
      [((1 : ℝ) / 1e6) / (((0 : ℝ) / ((1 : ℝ) * 109.2)) ^ 2 + 1e-12)] := by
  have hcol : Frame.getColD (TessNew.engineer_features
      [("pl_rade", [0]), ("st_rad", [1]), ("pl_trandep", [1])])
      "transit_depth_anomaly" =
      [TessNew.transit_depth_anomaly (TessNew.transit_depth_normalized 1)
        (TessNew.planet_star_ratio 0 1)] := by
    rw [TessNew.engineer_tda_col]
    rfl
  constructor
  · rw [hcol]
    intro h
    rw [List.cons.injEq] at h
    have := h.1
    rw [TessNew.transit_depth_anomaly, TessNew.transit_depth_normalized,
      TessNew.planet_star_ratio] at this
    norm_num at this
  · rw [hcol, TessNew.transit_depth_anomaly, TessNew.transit_depth_normalized,
      TessNew.planet_star_ratio]

/-- C1 (amended): row-wise, both engineers satisfy
`transit_depth_normalized = pl_trandep / 1e6` and
`transit_duration_fraction = pl_trandurh / (pl_orbper * 24)`; the anomaly is
`transit_depth_normalized / ((pl_rade / (st_rad * 109.2))**2 + eps)` with
`eps = 1e-10` in the old `TessFeatureEngineer` but `eps = 1e-12` in the new
`TessNewFeatureEngineer`. -/
theorem C1_transit_geometry_formulas :
    (∀ (df : Frame.DF) (i : ℕ),
      i < (Frame.getColD df "pl_trandep").length →
      i < (Frame.getColD df "pl_rade").length →
      i < (Frame.getColD df "st_rad").length →
      i < (Frame.getColD df "pl_trandurh").length →
      i < (Frame.getColD df "pl_orbper").length →
      (Frame.getColD (TessNew.engineer_features df) "transit_depth_normalized").getD i 0 =
        (Frame.getColD df "pl_trandep").getD i 0 / 1e6 ∧
      (Frame.getColD (TessNew.engineer_features df) "transit_depth_anomaly").getD i 0 =
        ((Frame.getColD df "pl_trandep").getD i 0 / 1e6) /
          (((Frame.getColD df "pl_rade").getD i 0 /
            ((Frame.getColD df "st_rad").getD i 0 * 109.2)) ^ 2 + 1e-12) ∧
      (Frame.getColD (TessNew.engineer_features df) "transit_duration_fraction").getD i 0 =
        (Frame.getColD df "pl_trandurh").getD i 0 /
          ((Frame.getColD df "pl_orbper").getD i 0 * 24)) ∧
    (∀ (df : Frame.DF) (i : ℕ),
      Frame.hasCol df "pl_trandep" = true → Frame.hasCol df "st_rad" = true →
      Frame.hasCol df "pl_rade" = true → Frame.hasCol df "pl_trandurh" = true →
      Frame.hasCol df "pl_orbper" = true →
      i < (Frame.getColD df "pl_trandep").length →
      i < (Frame.getColD df "pl_rade").length →
      i < (Frame.getColD df "st_rad").length →
      i < (Frame.getColD df "pl_trandurh").length →
      i < (Frame.getColD df "pl_orbper").length →
      (Frame.getColD (TessOld.create_transit_features df) "transit_depth_normalized").getD i 0 =
        (Frame.getColD df "pl_trandep").getD i 0 / 1e6 ∧
      (Frame.getColD (TessOld.create_transit_features df) "transit_depth_anomaly").getD i 0 =
        ((Frame.getColD df "pl_trandep").getD i 0 / 1e6) /
          (((Frame.getColD df "pl_rade").getD i 0 /
            ((Frame.getColD df "st_rad").getD i 0 * 109.2)) ^ 2 + 1e-10) ∧
      (Frame.getColD (TessOld.create_transit_features df) "transit_duration_fraction").getD i 0 =
        (Frame.getColD df "pl_trandurh").getD i 0 /
          ((Frame.getColD df "pl_orbper").getD i 0 * 24)) := by
  constructor
  · intro df i hdep hrade hsrad hdurh hper
    refine ⟨?_, ?_, ?_⟩
    · rw [TessNew.engineer_tdn_col, map_getD _ 0 0 _ _ hdep]
      rfl
    · rw [TessNew.engineer_tda_col,
        zipWith_getD _ 0 0 0 _ _ i (by simpa using hdep)
          (by rw [List.length_zipWith]; omega),
        map_getD _ 0 0 _ _ hdep, zipWith_getD _ 0 0 0 _ _ i hrade hsrad]
      rfl
    · rw [TessNew.engineer_tdf_col, zipWith_getD _ 0 0 0 _ _ i hdurh hper]
      rfl
  · intro df i h1 h2 h3 h4 h5 hdep hrade hsrad hdurh hper
    obtain ⟨e1, e2, e3⟩ := TessOld.old_transit_cols df h1 h2 h3 h4 h5
    refine ⟨?_, ?_, ?_⟩
    · rw [e1, map_getD _ 0 0 _ _ hdep]
    · rw [e2,
        zipWith_getD _ 0 0 0 _ _ i (by simpa using hdep)
          (by rw [List.length_zipWith]; omega),
        map_getD _ 0 0 _ _ hdep, zipWith_getD _ 0 0 0 _ _ i hrade hsrad]
    · rw [e3, zipWith_getD _ 0 0 0 _ _ i hdurh hper]

namespace TessNew

theorem boolFlag_eq_one_iff (p : Prop) [Decidable p] : boolFlag p = 1 ↔ p := by
  unfold boolFlag
  by_cases h : p <;> simp [h]

theorem detection_quality_tmag0 (d : ℝ) : detection_quality d 0 = d := by
  rw [detection_quality, zero_div, Real.rpow_zero, div_one]

/-- The two batches of the batch-relativity scenario: the row
`pl_trandep = 40, st_tmag = 0` appears in both (index 3 of A, index 0 of
B), among different neighbours. -/
noncomputable def snrBatchA : Frame.DF :=
  [("pl_trandep", [10, 20, 30, 40]), ("st_tmag", [0, 0, 0, 0])]

noncomputable def snrBatchB : Frame.DF :=
  [("pl_trandep", [40, 50, 60, 70]), ("st_tmag", [0, 0, 0, 0])]

theorem dq_snrBatchA :
    List.zipWith detection_quality (Frame.getColD snrBatchA "pl_trandep")
      (Frame.getColD snrBatchA "st_tmag") = [10, 20, 30, 40] := by
  show List.zipWith detection_quality [10, 20, 30, 40] [0, 0, 0, 0] = [10, 20, 30, 40]
  simp [detection_quality_tmag0]

theorem dq_snrBatchB :
    List.zipWith detection_quality (Frame.getColD snrBatchB "pl_trandep")
      (Frame.getColD snrBatchB "st_tmag") = [40, 50, 60, 70] := by
  show List.zipWith detection_quality [40, 50, 60, 70] [0, 0, 0, 0] = [40, 50, 60, 70]
  simp [detection_quality_tmag0]

theorem sortR_snrBatchA : sortR [(10 : ℝ), 20, 30, 40] = [10, 20, 30, 40] := by
  norm_num [sortR, List.insertionSort, List.orderedInsert]

theorem sortR_snrBatchB : sortR [(40 : ℝ), 50, 60, 70] = [40, 50, 60, 70] := by
  norm_num [sortR, List.insertionSort, List.orderedInsert]

theorem q75_snrBatchA : quantile75 [(10 : ℝ), 20, 30, 40] = 32.5 := by
  simp only [quantile75, sortR_snrBatchA]
  norm_num

theorem q75_snrBatchB : quantile75 [(40 : ℝ), 50, 60, 70] = 62.5 := by
  simp only [quantile75, sortR_snrBatchB]
  norm_num

end TessNew

/-- C7: for every batch the engineered `detection_quality` is row-wise
`pl_trandep / 10**(st_tmag/5)` and `high_snr_detection` is 1 exactly when
the row's detection quality strictly exceeds the batch's 75th percentile of
detection quality; the flag is batch-relative: the identical row
(`pl_trandep = 40, st_tmag = 0`) is flagged 1 in one batch and 0 in
another, though its detection-quality value is the same in both. -/
theorem C7_detection_quality_batch_relative :
    (∀ dep tmag : ℝ, TessNew.detection_quality dep tmag = dep / (10 : ℝ) ^ (tmag / 5)) ∧
    (∀ (df : Frame.DF) (i : ℕ),
      i < (Frame.getColD df "pl_trandep").length →
      i < (Frame.getColD df "st_tmag").length →
      (Frame.getColD (TessNew.engineer_features df) "detection_quality").getD i 0 =
        TessNew.detection_quality ((Frame.getColD df "pl_trandep").getD i 0)
          ((Frame.getColD df "st_tmag").getD i 0) ∧
      ((Frame.getColD (TessNew.engineer_features df) "high_snr_detection").getD i 0 = 1 ↔
        TessNew.quantile75 (List.zipWith TessNew.detection_quality
            (Frame.getColD df "pl_trandep") (Frame.getColD df "st_tmag")) <
          TessNew.detection_quality ((Frame.getColD df "pl_trandep").getD i 0)
            ((Frame.getColD df "st_tmag").getD i 0))) ∧
    (Frame.getColD (TessNew.engineer_features TessNew.snrBatchA)
        "high_snr_detection").getD 3 0 = 1 ∧
    (Frame.getColD (TessNew.engineer_features TessNew.snrBatchB)
        "high_snr_detection").getD 0 0 = 0 ∧
    (Frame.getColD (TessNew.engineer_features TessNew.snrBatchA)
        "detection_quality").getD 3 0 =
      (Frame.getColD (TessNew.engineer_features TessNew.snrBatchB)
        "detection_quality").getD 0 0 := by
  refine ⟨fun dep tmag => rfl, ?_, ?_, ?_, ?_⟩
  · intro df i hdep htmag
    have hmin : i < (List.zipWith TessNew.detection_quality
        (Frame.getColD df "pl_trandep") (Frame.getColD df "st_tmag")).length := by
      rw [List.length_zipWith]; omega
    constructor
    · rw [TessNew.engineer_dq_col, zipWith_getD _ 0 0 0 _ _ i hdep htmag]
    · rw [TessNew.engineer_snr_col, map_getD _ 0 0 _ _ hmin,
        TessNew.boolFlag_eq_one_iff, zipWith_getD _ 0 0 0 _ _ i hdep htmag]
  · rw [TessNew.engineer_snr_col, TessNew.dq_snrBatchA, TessNew.q75_snrBatchA]
    norm_num [TessNew.boolFlag]
  · rw [TessNew.engineer_snr_col, TessNew.dq_snrBatchB, TessNew.q75_snrBatchB]
    norm_num [TessNew.boolFlag]
  · rw [TessNew.engineer_dq_col, TessNew.engineer_dq_col, TessNew.dq_snrBatchA,
      TessNew.dq_snrBatchB]
    norm_num

namespace TessNew

theorem nrows_fill_pnum (df : Frame.DF) :
    Frame.nrows (if Frame.hasCol df "pl_pnum" then df
      else Frame.setCol df "pl_pnum" (List.replicate (Frame.nrows df) 1)) =
      Frame.nrows df := by
  by_cases h : Frame.hasCol df "pl_pnum"
  · rw [if_pos h]
  · rw [if_neg h, Frame.nrows_setCol_replicate]

theorem hasCol_fillDefaults_pnum (df : Frame.DF) :
    Frame.hasCol (fillDefaults df) "pl_pnum" = true := by
  unfold fillDefaults
  by_cases h1 : Frame.hasCol df "pl_pnum"
  · rw [if_pos h1]
    by_cases h2 : Frame.hasCol df "pl_tranmid"
    · rw [if_pos h2]; exact h1
    · rw [if_neg h2, Frame.hasCol_setCol_ne _ _ _ _ (by decide)]; exact h1
  · rw [if_neg h1]
    have h1' : Frame.hasCol (Frame.setCol df "pl_pnum"
        (List.replicate (Frame.nrows df) 1)) "pl_pnum" = true :=
      Frame.hasCol_setCol_self _ _ _
    by_cases h2 : Frame.hasCol (Frame.setCol df "pl_pnum"
        (List.replicate (Frame.nrows df) 1)) "pl_tranmid"
    · rw [if_pos h2]; exact h1'
    · rw [if_neg h2, Frame.hasCol_setCol_ne _ _ _ _ (by decide)]; exact h1'

theorem hasCol_fillDefaults_tranmid (df : Frame.DF) :
    Frame.hasCol (fillDefaults df) "pl_tranmid" = true := by
  unfold fillDefaults
  by_cases h1 : Frame.hasCol df "pl_pnum"
  · rw [if_pos h1]
    by_cases h2 : Frame.hasCol df "pl_tranmid"
    · rw [if_pos h2]; exact h2
    · rw [if_neg h2]; exact Frame.hasCol_setCol_self _ _ _
  · rw [if_neg h1]
    have he : Frame.hasCol (Frame.setCol df "pl_pnum"
        (List.replicate (Frame.nrows df) 1)) "pl_tranmid" =
        Frame.hasCol df "pl_tranmid" := Frame.hasCol_setCol_ne _ _ _ _ (by decide)
    by_cases h2 : Frame.hasCol (Frame.setCol df "pl_pnum"
        (List.replicate (Frame.nrows df) 1)) "pl_tranmid"
    · rw [if_pos h2]; exact h2
    · rw [if_neg h2]; exact Frame.hasCol_setCol_self _ _ _

theorem hasCol_fillDefaults_other (df : Frame.DF) (c : String)
    (hc1 : c ≠ "pl_pnum") (hc2 : c ≠ "pl_tranmid") :
    Frame.hasCol (fillDefaults df) c = Frame.hasCol df c := by
  unfold fillDefaults
  by_cases h1 : Frame.hasCol df "pl_pnum"
  · rw [if_pos h1]
    by_cases h2 : Frame.hasCol df "pl_tranmid"
    · rw [if_pos h2]
    · rw [if_neg h2, Frame.hasCol_setCol_ne _ _ _ _ (Ne.symm hc2)]
  · rw [if_neg h1]
    have he : Frame.hasCol (Frame.setCol df "pl_pnum"
        (List.replicate (Frame.nrows df) 1)) c = Frame.hasCol df c :=
      Frame.hasCol_setCol_ne _ _ _ _ (Ne.symm hc1)
    by_cases h2 : Frame.hasCol (Frame.setCol df "pl_pnum"
        (List.replicate (Frame.nrows df) 1)) "pl_tranmid"
    · rw [if_pos h2]; exact he
    · rw [if_neg h2, Frame.hasCol_setCol_ne _ _ _ _ (Ne.symm hc2)]; exact he

theorem getColD_fillDefaults_pnum (df : Frame.DF)
    (h : Frame.hasCol df "pl_pnum" = false) :
    Frame.getColD (fillDefaults df) "pl_pnum" =
      List.replicate (Frame.nrows df) 1 := by
  unfold fillDefaults
  rw [if_neg (show ¬Frame.hasCol df "pl_pnum" = true by simp [h])]
  have hself : Frame.getColD (Frame.setCol df "pl_pnum"
      (List.replicate (Frame.nrows df) 1)) "pl_pnum" =
      List.replicate (Frame.nrows df) 1 := Frame.getColD_setCol_self _ _ _
  by_cases h2 : Frame.hasCol (Frame.setCol df "pl_pnum"
      (List.replicate (Frame.nrows df) 1)) "pl_tranmid"
  · rw [if_pos h2]; exact hself
  · rw [if_neg h2, Frame.getColD_setCol_ne _ _ (by decide)]; exact hself

theorem getColD_fillDefaults_tranmid (df : Frame.DF)
    (h : Frame.hasCol df "pl_tranmid" = false) :
    Frame.getColD (fillDefaults df) "pl_tranmid" =
      List.replicate (Frame.nrows df) 0 := by
  unfold fillDefaults
  by_cases h1 : Frame.hasCol df "pl_pnum"
  · rw [if_pos h1, if_neg (by simp [h]), Frame.getColD_setCol_self]
  · rw [if_neg h1]
    have htr : Frame.hasCol (Frame.setCol df "pl_pnum"
        (List.replicate (Frame.nrows df) 1)) "pl_tranmid" = false := by
      rw [Frame.hasCol_setCol_ne _ _ _ _ (by decide)]; exact h
    rw [if_neg (by simp [htr]), Frame.getColD_setCol_self,
      Frame.nrows_setCol_replicate]

theorem missingOf_eq_on_input (df : Frame.DF) :
    missingOf df = required_features.filter (fun c => !Frame.hasCol df c) := by
  unfold missingOf
  apply List.filter_congr
  intro c hc
  have hne : c ≠ "pl_pnum" ∧ c ≠ "pl_tranmid" := by
    revert hc
    have : required_features =
        ["ra", "dec", "st_teff", "st_logg", "st_rad", "st_dist",
         "st_pmra", "st_pmdec", "st_tmag",
         "pl_orbper", "pl_rade", "pl_trandep", "pl_trandurh", "pl_eqt",
         "pl_insol"] := rfl
    rw [this]
    intro hc
    fin_cases hc <;> exact ⟨by decide, by decide⟩
  rw [hasCol_fillDefaults_other df c hne.1 hne.2]

theorem colNames_winsorize_foldl (names : List String) :
    ∀ df : Frame.DF,
      Frame.colNames (names.foldl (fun acc c =>
        if Frame.hasCol acc c then Frame.setCol acc c (winsorize01 (Frame.getColD acc c))
        else acc) df) = Frame.colNames df := by
  induction names with
  | nil => intro df; rfl
  | cons c cs ih =>
    intro df
    rw [List.foldl_cons, ih]
    by_cases h : Frame.hasCol df c
    · rw [if_pos h, Frame.colNames_setCol, if_pos h]
    · rw [if_neg h]

theorem colNames_apply_winsorization (df : Frame.DF) :
    Frame.colNames (apply_winsorization df) = Frame.colNames df :=
  colNames_winsorize_foldl BASE_FEATURES df

theorem hasCol_eq_contains (df : Frame.DF) (c : String) :
    Frame.hasCol df c = (Frame.colNames df).contains c := rfl

theorem colNames_engineer_of_base (df : Frame.DF)
    (h : Frame.colNames df = BASE_FEATURES) :
    Frame.colNames (engineer_features df) = expected_feature_order := by
  simp only [engineer_features, Frame.colNames_setCol, hasCol_eq_contains, h]
  decide

theorem required_mem_base (c : String) (hc : c ∈ required_features) :
    c ∈ BASE_FEATURES := List.mem_of_mem_filter hc

theorem preprocess_ok (df : Frame.DF) (h : missingOf df = []) :
    ∃ out, preprocess df = .ok out ∧
      Frame.colNames out = expected_feature_order ∧ out.length = 34 := by
  have hreq : ∀ c ∈ required_features, Frame.hasCol df c = true := by
    rw [missingOf_eq_on_input] at h
    intro c hc
    by_contra habs
    have : c ∈ required_features.filter (fun c => !Frame.hasCol df c) :=
      List.mem_filter.mpr ⟨hc, by simp [Bool.not_eq_true] at habs ⊢; exact habs⟩
    simp [h] at this
  have hbase : ∀ c ∈ BASE_FEATURES, Frame.hasCol (fillDefaults df) c = true := by
    intro c hc
    by_cases hp : c = "pl_pnum"
    · rw [hp]; exact hasCol_fillDefaults_pnum df
    by_cases ht : c = "pl_tranmid"
    · rw [ht]; exact hasCol_fillDefaults_tranmid df
    have hcr : c ∈ required_features := by
      unfold required_features
      refine List.mem_filter.mpr ⟨hc, ?_⟩
      simp [hp, ht]
    rw [hasCol_fillDefaults_other df c hp ht]
    exact hreq c hcr
  have hsel1 := Frame.selectCols_of_has hbase
  have hord : Frame.colNames
      (BASE_FEATURES.map (fun c => (c, Frame.getColD (fillDefaults df) c))) =
      BASE_FEATURES := Frame.colNames_of_selectCols hsel1
  have hwin : Frame.colNames (apply_winsorization
      (BASE_FEATURES.map (fun c => (c, Frame.getColD (fillDefaults df) c)))) =
      BASE_FEATURES := by
    rw [colNames_apply_winsorization, hord]
  have heng : Frame.colNames (engineer_features (apply_winsorization
      (BASE_FEATURES.map (fun c => (c, Frame.getColD (fillDefaults df) c))))) =
      expected_feature_order := colNames_engineer_of_base _ hwin
  have hexp : ∀ c ∈ expected_feature_order,
      Frame.hasCol (engineer_features (apply_winsorization
        (BASE_FEATURES.map (fun c => (c, Frame.getColD (fillDefaults df) c))))) c
        = true := by
    intro c hc
    rw [hasCol_eq_contains, heng]
    simpa using hc
  have hsel2 := Frame.selectCols_of_has hexp
  refine ⟨_, ?_, Frame.colNames_of_selectCols hsel2, ?_⟩
  · unfold preprocess
    rw [if_pos (by simp [h]), hsel1]
    simp only []
    rw [hsel2]
  · rw [Frame.length_of_selectCols hsel2]
    rfl

theorem preprocess_error (df : Frame.DF) (h : missingOf df ≠ []) :
    preprocess df = .error (.missingFeatures (missingOf df)) := by
  unfold preprocess
  rw [if_neg (by simpa [List.isEmpty_iff] using h)]

theorem missingOf_nil_iff (df : Frame.DF) :
    missingOf df = [] ↔ ∀ c ∈ required_features, Frame.hasCol df c = true := by
  rw [missingOf_eq_on_input, List.filter_eq_nil_iff]
  constructor
  · intro h c hc
    have := h c hc
    simpa using this
  · intro h c hc
    simp [h c hc]

/-- A raw one-row batch carrying exactly the 15 required base columns
(`pl_pnum` and `pl_tranmid` deliberately absent). -/
noncomputable def pipelineWitnessBatch : Frame.DF :=
  [("ra", [1]), ("dec", [1]), ("st_teff", [1]), ("st_logg", [1]), ("st_rad", [1]),
   ("st_dist", [1]), ("st_pmra", [1]), ("st_pmdec", [1]), ("st_tmag", [1]),
   ("pl_orbper", [1]), ("pl_rade", [1]), ("pl_trandep", [1]), ("pl_trandurh", [1]),
   ("pl_eqt", [1]), ("pl_insol", [1])]

end TessNew

/-- C10: `preprocess` fills an absent `pl_pnum` with the constant 1 and an
absent `pl_tranmid` with the constant 0.0; it raises a ValueError exactly
when one of the remaining 15 base columns is missing; and on success the
result has exactly 34 columns in the fixed order (17 base then 17
engineered), independent of the input's column order or extra columns. -/
theorem C10_preprocess_shape :
    (∀ df : Frame.DF, Frame.hasCol df "pl_pnum" = false →
      Frame.getColD (TessNew.fillDefaults df) "pl_pnum" =
        List.replicate (Frame.nrows df) 1) ∧
    (∀ df : Frame.DF, Frame.hasCol df "pl_tranmid" = false →
      Frame.getColD (TessNew.fillDefaults df) "pl_tranmid" =
        List.replicate (Frame.nrows df) 0) ∧
    (∀ df : Frame.DF, TessNew.missingOf df = [] ↔
      ∀ c ∈ TessNew.required_features, Frame.hasCol df c = true) ∧
    (∀ df : Frame.DF, TessNew.missingOf df ≠ [] →
      TessNew.preprocess df =
        .error (.missingFeatures (TessNew.missingOf df))) ∧
    (∀ df : Frame.DF, TessNew.missingOf df = [] →
      ∃ out, TessNew.preprocess df = .ok out ∧
        Frame.colNames out = TessNew.expected_feature_order ∧ out.length = 34) ∧
    TessNew.required_features.length = 15 ∧
    TessNew.expected_feature_order.length = 34 :=
  ⟨TessNew.getColD_fillDefaults_pnum, TessNew.getColD_fillDefaults_tranmid,
    TessNew.missingOf_nil_iff, TessNew.preprocess_error, TessNew.preprocess_ok,
    rfl, rfl⟩

/-- C10 (witness): on a concrete one-row batch with exactly the 15 required
columns, both defaults are filled and preprocessing succeeds with the 34
expected columns. -/
theorem C10_preprocess_witness :
    Frame.getColD (TessNew.fillDefaults TessNew.pipelineWitnessBatch) "pl_pnum" =
      List.replicate (Frame.nrows TessNew.pipelineWitnessBatch) 1 ∧
    Frame.getColD (TessNew.fillDefaults TessNew.pipelineWitnessBatch) "pl_tranmid" =
      List.replicate (Frame.nrows TessNew.pipelineWitnessBatch) 0 ∧
    (∃ out, TessNew.preprocess TessNew.pipelineWitnessBatch = .ok out ∧
      Frame.colNames out = TessNew.expected_feature_order ∧ out.length = 34) :=
  ⟨C10_preprocess_shape.1 _ rfl, C10_preprocess_shape.2.1 _ rfl,
    C10_preprocess_shape.2.2.2.2.1 _ rfl⟩
